import Mathlib

/-!
Verification of the `impfe` vaccination-center metrics exporter.

The Go program (`main.go`) is embedded shallowly:

* JSON records (`Place`, `Agenda`, `VisitMotive`, availability responses)
  become Lean structures with the same fields.
* Go maps (`map[int]string`, `map[int]*Impfzentrum`) become association
  lists over `Int` keys with overwrite-on-insert (`upsert`) and first-match
  lookup (`lookupA`); a missing `map[int]string` key yields the zero value
  `""` (`lookupD`), exactly as in Go.
* The unchecked dereference `practiceByID[a.PracticeID]` in `Impfzentren`
  panics in Go when the key is absent; the embedding returns `none` there
  (`processAgenda`), so `none` models the nil-pointer panic.
* HTTP calls are abstracted as inputs: the catalog response is an
  `Except FetchError CIZRespone` argument, and availability fetches are an
  oracle `FetchOracle` mapping the request parameters
  (practice id, motive id, agenda ids) to a response or an error.
* `time.Time` instants become integer Unix seconds; `time.Parse("2006-01-02", s)`
  becomes `parseDate`, `time.Until(t)` becomes `timeSub t now` (a saturating
  nanosecond duration, as Go's `Duration`), and `Hours()/24` becomes
  `durationDays` over `ℚ`.
* The prometheus channel sends become an explicit list of `Sample`s; the
  goroutine fan-out is order-irrelevant for the stated claims, so samples
  are collected in iteration order.
-/

set_option autoImplicit false

/-- A booking step inside a slot (Go `Step`). -/
structure Step where
  Start : String
  End : String
  VititMotiveID : Int
  AgendaID : Int
deriving DecidableEq, Repr

/-- A bookable slot (Go `Slot`). -/
structure Slot where
  Start : String
  End : String
  Steps : List Step
  AgendaID : Int
deriving DecidableEq, Repr

/-- One per-date availability window of the upstream response (Go `Availability`). -/
structure Availability where
  Date : String
  Slots : List Slot
deriving DecidableEq, Repr

/-- The decoded availability response (Go `AvailbilitiesResponse`). -/
structure AvailbilitiesResponse where
  Total : Int
  Reason : String
  Message : String
  NumberOfFutureVacinations : Int
  NextSlot : String
  Availabilities : List Availability
deriving DecidableEq, Repr

/-- A catalog place entry (Go `Place`). -/
structure Place where
  Name : String
  PractiseIDs : List Int
deriving DecidableEq, Repr

/-- A catalog agenda entry (Go `Agenda`). -/
structure Agenda where
  ID : Int
  VisitMotives : List Int
  PracticeID : Int
  BookingDisabled : Bool
  BookingTemporayDisabled : Bool
deriving DecidableEq, Repr

/-- A catalog visit-motive entry (Go `VisitMotive`). -/
structure VisitMotive where
  ID : Int
  Name : String
deriving DecidableEq, Repr

/-- The decoded catalog payload (the `Data` struct inside Go `CIZRespone`). -/
structure CIZData where
  Places : List Place
  Agendas : List Agenda
  VisitMotives : List VisitMotive
deriving DecidableEq, Repr

/-- The decoded catalog response (Go `CIZRespone`). -/
structure CIZRespone where
  Data : CIZData
deriving DecidableEq, Repr

/-- A vaccination center (Go `Impfzentrum`).  The two Go string maps are
association lists with overwrite-on-insert semantics. -/
structure Impfzentrum where
  ID : Int
  Name : String
  DisabledVaccination : List (Int × String)
  Vaccination : List (Int × String)
  AgendaIDs : List Int
deriving DecidableEq, Repr

/-! ## Association lists as Go maps -/

/-- First-match lookup, Go `m[k]` (comma-ok form). -/
def lookupA {α : Type} : List (Int × α) → Int → Option α
  | [], _ => none
  | p :: rest, k => if p.1 == k then some p.2 else lookupA rest k

/-- Go `m[k]` returning the zero value `d` when the key is absent. -/
def lookupD {α : Type} (m : List (Int × α)) (k : Int) (d : α) : α :=
  (lookupA m k).getD d

/-- Go `m[k] = v`: replace the binding if the key is present, else append it. -/
def upsert {α : Type} : List (Int × α) → Int → α → List (Int × α)
  | [], k, v => [(k, v)]
  | p :: rest, k, v => if p.1 == k then (k, v) :: rest else p :: upsert rest k v

/-- Mutate the value stored under key `k` in place (Go mutation through a
`*Impfzentrum` held in a map); keys are untouched. -/
def updateA {α : Type} (m : List (Int × α)) (k : Int) (f : α → α) : List (Int × α) :=
  m.map (fun p => if p.1 == k then (k, f p.2) else p)

/-- The key set of a Go map, in insertion order. -/
def keysOf {α : Type} (m : List (Int × α)) : List Int :=
  m.map Prod.fst

/-! ## Calendar arithmetic (Go `time` essentials) -/

/-- Gregorian leap-year rule. -/
def isLeap (y : Nat) : Bool :=
  (y % 4 == 0 && y % 100 != 0) || y % 400 == 0

/-- Length of month `m` (1-12) in year `y`. -/
def daysInMonth (y : Nat) : Nat → Nat
  | 1 => 31
  | 2 => if isLeap y then 29 else 28
  | 3 => 31
  | 4 => 30
  | 5 => 31
  | 6 => 30
  | 7 => 31
  | 8 => 31
  | 9 => 30
  | 10 => 31
  | 11 => 30
  | 12 => 31
  | _ => 0

/-- Days in year `y` before the first of month `m`. -/
def daysBeforeMonth (y m : Nat) : Nat :=
  let base :=
    match m with
    | 1 => 0
    | 2 => 31
    | 3 => 59
    | 4 => 90
    | 5 => 120
    | 6 => 151
    | 7 => 181
    | 8 => 212
    | 9 => 243
    | 10 => 273
    | 11 => 304
    | 12 => 334
    | _ => 0
  if 3 ≤ m ∧ isLeap y then base + 1 else base

/-- Days from 0000-01-01 to the first of year `y` (proleptic Gregorian). -/
def daysBeforeYear (y : Nat) : Nat :=
  365 * y + (y + 3) / 4 - (y + 99) / 100 + (y + 399) / 400

/-- Day number of the civil date `y-m-d` counted from 0000-01-01. -/
def toDays (y m d : Nat) : Nat :=
  daysBeforeYear y + daysBeforeMonth y m + (d - 1)

/-- Unix seconds of midnight (UTC) on the civil date `y-m-d`;
`time.Parse("2006-01-02", _)` yields exactly this instant. -/
def unixMidnight (y m d : Nat) : Int :=
  ((toDays y m d : Int) - (toDays 1970 1 1 : Int)) * 86400

/-- Numeric value of a decimal digit character. -/
def digitVal (c : Char) : Nat :=
  c.toNat - 48

/-- Go `time.Parse("2006-01-02", s)`: exactly `YYYY-MM-DD`, all digits, with
month and day range-checked against the calendar; returns the date triple. -/
def parseDate (s : String) : Option (Nat × Nat × Nat) :=
  match s.toList with
  | [y1, y2, y3, y4, c1, m1, m2, c2, d1, d2] =>
    if (c1 == '-') && (c2 == '-') &&
        (y1.isDigit && y2.isDigit && y3.isDigit && y4.isDigit &&
         m1.isDigit && m2.isDigit && d1.isDigit && d2.isDigit) then
      let y := ((digitVal y1 * 10 + digitVal y2) * 10 + digitVal y3) * 10 + digitVal y4
      let mo := digitVal m1 * 10 + digitVal m2
      let d := digitVal d1 * 10 + digitVal d2
      if 1 ≤ mo ∧ mo ≤ 12 ∧ 1 ≤ d ∧ d ≤ daysInMonth y mo then
        some (y, mo, d)
      else none
    else none
  | _ => none

/-- Largest Go `time.Duration` in nanoseconds. -/
def maxDuration : Int := 2 ^ 63 - 1

/-- Smallest Go `time.Duration` in nanoseconds. -/
def minDuration : Int := -(2 ^ 63)

/-- Go `t.Sub(u)` (hence `time.Until`): the difference of two instants in
nanoseconds, saturating at the `Duration` bounds. -/
def timeSub (t u : Int) : Int :=
  if (t - u) * 1000000000 < minDuration then minDuration
  else if (t - u) * 1000000000 > maxDuration then maxDuration
  else (t - u) * 1000000000

/-- Go `d.Hours() / 24` for a nanosecond duration `d`. -/
def durationDays (d : Int) : ℚ :=
  ((d : ℚ) / 3600000000000) / 24

/-! ## Metric samples and fetch abstraction -/

/-- A metric sample sent on the prometheus channel: either the presence gauge
`impfzentrum` (labels name, type, disabled; value always 1) or the next-slot
gauge `impfzentrum_next_slot_duration_days` (labels name, type). -/
inductive Sample where
  | presence (name ty disabled : String) (value : ℚ)
  | nextSlot (name ty : String) (value : ℚ)
deriving DecidableEq, Repr

/-- Failure modes of an upstream HTTP fetch as distinguished by the Go code:
transport error, status above 399, or body read/JSON decode failure. -/
inductive FetchError where
  | network
  | httpStatus (code : Nat)
  | decode
deriving DecidableEq, Repr

/-- Abstraction of `GetAvailabilities`: the outcome of the availability fetch
for (practice id, visit-motive id, agenda ids). -/
def FetchOracle : Type :=
  Int → Int → List Int → Except FetchError AvailbilitiesResponse

/-! ## The classifier (`Impfzentren`, lines 220-248) -/

/-- Whether either disable flag of the agenda is set. -/
def agendaDisabled (a : Agenda) : Bool :=
  a.BookingDisabled || a.BookingTemporayDisabled

/-- The `motiveByID` map built from the visit-motive list. -/
def buildMotiveByID (ms : List VisitMotive) : List (Int × String) :=
  ms.foldl (fun acc m => upsert acc m.ID m.Name) []

/-- One iteration of the place loop: a place with no practice ids is skipped
(`continue`), otherwise a fresh `Impfzentrum` is stored under the place's
first practice id. -/
def buildStep (acc : List (Int × Impfzentrum)) (p : Place) : List (Int × Impfzentrum) :=
  match p.PractiseIDs with
  | [] => acc
  | k :: _ => upsert acc k ⟨k, p.Name, [], [], []⟩

/-- The `practiceByID` map: one fresh `Impfzentrum` per place keyed by the
place's first practice id; places without practice ids are skipped. -/
def buildPracticeByID (ps : List Place) : List (Int × Impfzentrum) :=
  ps.foldl buildStep []

/-- One iteration of the inner motive loop of the agenda pass: write the
resolved motive name into the disabled or enabled map of the agenda's center. -/
def addMotive (motives : List (Int × String)) (a : Agenda)
    (m : List (Int × Impfzentrum)) (motiveID : Int) : List (Int × Impfzentrum) :=
  if agendaDisabled a then
    updateA m a.PracticeID
      (fun c => { c with DisabledVaccination := upsert c.DisabledVaccination motiveID (lookupD motives motiveID "") })
  else
    updateA m a.PracticeID
      (fun c => { c with Vaccination := upsert c.Vaccination motiveID (lookupD motives motiveID "") })

/-- One iteration of the agenda loop.  Go dereferences
`practiceByID[a.PracticeID]` without a presence check, so an agenda whose
practice id has no center makes the program panic: that is the `none` case. -/
def processAgenda (motives : List (Int × String))
    (m : List (Int × Impfzentrum)) (a : Agenda) : Option (List (Int × Impfzentrum)) :=
  match lookupA m a.PracticeID with
  | none => none
  | some _ =>
    some (a.VisitMotives.foldl (addMotive motives a)
      (updateA m a.PracticeID (fun c => { c with AgendaIDs := c.AgendaIDs ++ [a.ID] })))

/-- The classification part of `Impfzentren`, as the keyed map. -/
def classifyMap (ciz : CIZRespone) : Option (List (Int × Impfzentrum)) :=
  List.foldlM (processAgenda (buildMotiveByID ciz.Data.VisitMotives))
    (buildPracticeByID ciz.Data.Places) ciz.Data.Agendas

/-- The classification part of `Impfzentren`: the center list collected from
`practiceByID` (`none` models the nil-pointer panic on an orphan agenda). -/
def classifyImpfzentren (ciz : CIZRespone) : Option (List Impfzentrum) :=
  (classifyMap ciz).map (fun m => m.map Prod.snd)

/-- The first practice ids of the places that have at least one practice id:
the key each such place contributes a center under. -/
def firstIDsL (ps : List Place) : List Int :=
  ps.filterMap (fun p => p.PractiseIDs.head?)

/-- Go `Impfzentren`: a fetch/decode failure is returned as an error (ending
the scrape cycle); otherwise the catalog is classified, where `none` models
the nil-pointer panic on an orphan agenda. -/
def Impfzentren (resp : Except FetchError CIZRespone) :
    Option (Except FetchError (List Impfzentrum)) :=
  match resp with
  | Except.error e => some (Except.error e)
  | Except.ok ciz => (classifyImpfzentren ciz).map Except.ok

/-! ## Availability collection (`CollectAvailability`, lines 130-158) -/

/-- The loop of lines 139-145: `nextDate` after the scan, i.e. the date of the
first availability window whose slot list is non-empty, or `""` if none is. -/
def firstSlotDate (r : AvailbilitiesResponse) : String :=
  match r.Availabilities.find? (fun a => decide (0 < a.Slots.length)) with
  | some a => a.Date
  | none => ""

/-- Lines 138-148: the first availability window with a non-empty slot list
supplies `nextDate`; an empty `nextDate` falls back to the top-level
`next_slot` hint (`""` is Go's encoding of an absent date). -/
def resolveNextDate (r : AvailbilitiesResponse) : String :=
  if firstSlotDate r == "" then r.NextSlot else firstSlotDate r

/-- Modelled from the spec's words (section 4.3 resolution order), for the
refinement comparison with `resolveNextDate`: (a) the date of the first
window whose slot list is non-empty; (b) otherwise the top-level hint;
(c) otherwise no next date (the empty string). -/
def specNextDate (r : AvailbilitiesResponse) : String :=
  match r.Availabilities.find? (fun a => decide (0 < a.Slots.length)) with
  | some a => a.Date
  | none => r.NextSlot

/-- Go `CollectAvailability` for one (center, motive) pair: fetch through the
oracle; on fetch error emit nothing; resolve the next date; if one is present
parse it (a parse failure emits nothing) and emit the next-slot gauge sample
with value `time.Until(date).Hours()/24`. -/
def CollectAvailability (fetch : FetchOracle) (now : Int) (center : Impfzentrum)
    (motiveID : Int) (motiveName : String) : List Sample :=
  match fetch center.ID motiveID center.AgendaIDs with
  | Except.error _ => []
  | Except.ok r =>
    if resolveNextDate r == "" then []
    else
      match parseDate (resolveNextDate r) with
      | none => []
      | some (y, mo, d) =>
        [Sample.nextSlot center.Name motiveName (durationDays (timeSub (unixMidnight y mo d) now))]

/-! ## The orchestrator (`Collect`, lines 98-121) -/

/-- One center's share of the scrape cycle: for every enabled motive the
availability samples plus a presence sample with `disabled="false"`, for
every disabled motive a presence sample with `disabled="true"`; the second
component records the availability fetches issued (practice id, motive id,
agenda ids). -/
def collectCenter (fetch : FetchOracle) (now : Int) (c : Impfzentrum) :
    List Sample × List (Int × Int × List Int) :=
  ((c.Vaccination.map
      (fun p => CollectAvailability fetch now c p.1 p.2 ++ [Sample.presence c.Name p.2 "false" 1])).flatten
    ++ c.DisabledVaccination.map (fun p => Sample.presence c.Name p.2 "true" 1),
   c.Vaccination.map (fun p => (c.ID, p.1, c.AgendaIDs)))

/-- Go `Collect`: on a catalog fetch failure log and return with no samples;
otherwise emit every center's samples and issue its fetches.  `none` models
the panic on an orphan agenda propagating out of `Impfzentren`. -/
def Collect (resp : Except FetchError CIZRespone) (fetch : FetchOracle) (now : Int) :
    Option (List Sample × List (Int × Int × List Int)) :=
  match Impfzentren resp with
  | none => none
  | some (Except.error _) => some ([], [])
  | some (Except.ok centers) =>
    some ((centers.map (fun c => (collectCenter fetch now c).1)).flatten,
      (centers.map (fun c => (collectCenter fetch now c).2)).flatten)

/-! ## Specification-side combinators for the classifier proofs -/

/-- The cumulative effect of an agenda's motive loop on one string map. -/
def foldUpsert (motives : List (Int × String)) (mids : List Int)
    (vm : List (Int × String)) : List (Int × String) :=
  mids.foldl (fun acc mid => upsert acc mid (lookupD motives mid "")) vm

/-- The effect of processing one matching agenda on its center. -/
def applyAgenda (motives : List (Int × String)) (a : Agenda) (c : Impfzentrum) : Impfzentrum :=
  if agendaDisabled a then
    { c with AgendaIDs := c.AgendaIDs ++ [a.ID],
             DisabledVaccination := foldUpsert motives a.VisitMotives c.DisabledVaccination }
  else
    { c with AgendaIDs := c.AgendaIDs ++ [a.ID],
             Vaccination := foldUpsert motives a.VisitMotives c.Vaccination }

/-- The cumulative effect of a list of matching agendas on one center. -/
def agendaFold (motives : List (Int × String)) (as : List Agenda) (c : Impfzentrum) : Impfzentrum :=
  as.foldl (fun c a => applyAgenda motives a c) c

/-- Whether some agenda in `l` references motive `x` with no disable flag set. -/
def enabledWrites (l : List Agenda) (x : Int) : Bool :=
  l.any (fun a => !agendaDisabled a && decide (x ∈ a.VisitMotives))

/-- Whether some agenda in `l` references motive `x` with a disable flag set. -/
def disabledWrites (l : List Agenda) (x : Int) : Bool :=
  l.any (fun a => agendaDisabled a && decide (x ∈ a.VisitMotives))


/-! ## Concrete inputs used by the claim witnesses and counterexamples -/

/-- A catalog whose one place owns practice id 1 while its agenda names
practice id 2: the orphan-agenda input. -/
def dOrphan : CIZRespone :=
  ⟨⟨[⟨"Arena", [1]⟩], [⟨10, [5], 2, false, false⟩], []⟩⟩

/-- A catalog in which motive 5 is referenced first by a disabling agenda and
then by a non-disabling agenda of the same practice. -/
def dOverlap : CIZRespone :=
  ⟨⟨[⟨"Arena", [1]⟩], [⟨10, [5], 1, true, false⟩, ⟨11, [5], 1, false, false⟩],
    [⟨5, "CoronaVax"⟩]⟩⟩

/-- The center the classifier produces from `dOverlap`: motive 5 sits in both
maps. -/
def cOverlap : Impfzentrum :=
  ⟨1, "Arena", [(5, "CoronaVax")], [(5, "CoronaVax")], [10, 11]⟩

/-- Two places sharing the same first practice id 7. -/
def dDup : CIZRespone :=
  ⟨⟨[⟨"A", [7]⟩, ⟨"B", [7]⟩], [], []⟩⟩

/-- A catalog with one place, one enabled agenda and a known motive. -/
def dSimple : CIZRespone :=
  ⟨⟨[⟨"Arena", [1]⟩], [⟨11, [5], 1, false, false⟩], [⟨5, "CoronaVax"⟩]⟩⟩

/-- The center the classifier produces from `dSimple`. -/
def cSimple : Impfzentrum :=
  ⟨1, "Arena", [], [(5, "CoronaVax")], [11]⟩

/-- Like `dSimple` but with an empty visit-motive list: agenda motive 5 has no
name entry. -/
def dNoMotive : CIZRespone :=
  ⟨⟨[⟨"Arena", [1]⟩], [⟨11, [5], 1, false, false⟩], []⟩⟩

/-- The center the classifier produces from `dNoMotive`: motive 5 carries the
empty name. -/
def cNoMotive : Impfzentrum :=
  ⟨1, "Arena", [], [(5, "")], [11]⟩

/-- The spec's section-8 example: an empty-slot window for 2024-01-10 followed
by a non-empty window for 2024-01-12, no top-level hint. -/
def exampleResp : AvailbilitiesResponse :=
  ⟨0, "", "", 0, "", [⟨"2024-01-10", []⟩, ⟨"2024-01-12", [⟨"", "", [], 0⟩]⟩]⟩

/-- An availability response resolving to 2024-01-12. -/
def c9Resp : AvailbilitiesResponse :=
  ⟨1, "", "", 0, "", [⟨"2024-01-12", [⟨"", "", [], 0⟩]⟩]⟩

/-- A response with no usable window and hint 2024-02-01. -/
def goodResp : AvailbilitiesResponse :=
  ⟨1, "", "", 0, "2024-02-01", []⟩

/-- A center offering exactly motive 5, enabled. -/
def cW : Impfzentrum :=
  ⟨1, "Arena", [], [(5, "CoronaVax")], [10]⟩

/-- The always-failing availability oracle. -/
def oFail : FetchOracle := fun _ _ _ => Except.error FetchError.network

/-- An oracle succeeding exactly for pair (1, 5). -/
def oGood : FetchOracle := fun p m _ =>
  if p = 1 ∧ m = 5 then Except.ok goodResp else Except.error FetchError.network

/-- The oracle answering every request with `c9Resp`. -/
def o9 : FetchOracle := fun _ _ _ => Except.ok c9Resp

/-- A catalog whose only agenda is disabling: motive 5 ends up disabled-only. -/
def dDisabled : CIZRespone :=
  ⟨⟨[⟨"Arena", [1]⟩], [⟨10, [5], 1, true, false⟩], [⟨5, "CoronaVax"⟩]⟩⟩

/-- The center the classifier produces from `dDisabled`. -/
def cDisabled : Impfzentrum :=
  ⟨1, "Arena", [(5, "CoronaVax")], [], [10]⟩

/-! ## Association-list lemmas -/

/-- A Go map never repeats a key; the association lists built by the
classifier all satisfy this. -/
def NoDupKeys {α : Type} (m : List (Int × α)) : Prop :=
  (keysOf m).Nodup

theorem keysOf_nil {α : Type} : keysOf ([] : List (Int × α)) = [] := rfl

theorem keysOf_cons {α : Type} (p : Int × α) (rest : List (Int × α)) :
    keysOf (p :: rest) = p.1 :: keysOf rest := rfl

theorem lookupA_nil {α : Type} (x : Int) : lookupA ([] : List (Int × α)) x = none := rfl

theorem lookupA_cons {α : Type} (p : Int × α) (rest : List (Int × α)) (x : Int) :
    lookupA (p :: rest) x = if p.1 = x then some p.2 else lookupA rest x := by
  by_cases h : p.1 = x <;> simp [lookupA, h]

theorem upsert_cons {α : Type} (p : Int × α) (rest : List (Int × α)) (k : Int) (v : α) :
    upsert (p :: rest) k v = if p.1 = k then (k, v) :: rest else p :: upsert rest k v := by
  by_cases h : p.1 = k <;> simp [upsert, h]

theorem lookupA_upsert {α : Type} (m : List (Int × α)) (k : Int) (v : α) (x : Int) :
    lookupA (upsert m k v) x = if k = x then some v else lookupA m x := by
  induction m with
  | nil =>
    show lookupA [(k, v)] x = _
    rw [lookupA_cons, lookupA_nil]
  | cons p rest ih =>
    rw [upsert_cons]
    by_cases hpk : p.1 = k
    · rw [if_pos hpk, lookupA_cons, lookupA_cons]
      by_cases hkx : k = x
      · rw [if_pos hkx, if_pos hkx]
      · rw [if_neg hkx, if_neg hkx, if_neg (hpk ▸ hkx)]
    · rw [if_neg hpk, lookupA_cons, lookupA_cons, ih]
      by_cases hpx : p.1 = x
      · rw [if_pos hpx, if_neg fun h => hpk (hpx.trans h.symm), if_pos hpx]
      · rw [if_neg hpx, if_neg hpx]

theorem mem_of_lookupA {α : Type} (m : List (Int × α)) (k : Int) (v : α)
    (h : lookupA m k = some v) : (k, v) ∈ m := by
  induction m with
  | nil => simp [lookupA] at h
  | cons p rest ih =>
    rw [lookupA_cons] at h
    by_cases hpk : p.1 = k
    · rw [if_pos hpk] at h
      have : p = (k, v) := by
        cases p
        simp only [Option.some.injEq] at h
        simp_all
      exact this ▸ List.mem_cons_self p rest
    · rw [if_neg hpk] at h
      exact List.mem_cons_of_mem _ (ih h)

theorem lookupA_isSome_iff {α : Type} (m : List (Int × α)) (k : Int) :
    (lookupA m k).isSome ↔ k ∈ keysOf m := by
  induction m with
  | nil => simp [lookupA, keysOf]
  | cons p rest ih =>
    rw [lookupA_cons, keysOf_cons]
    by_cases hpk : p.1 = k
    · simp [hpk]
    · rw [if_neg hpk, List.mem_cons]
      simp only [ih]
      constructor
      · exact Or.inr
      · rintro (h | h)
        · exact absurd h.symm hpk
        · exact h

theorem lookupA_eq_none_iff {α : Type} (m : List (Int × α)) (k : Int) :
    lookupA m k = none ↔ k ∉ keysOf m := by
  rw [← lookupA_isSome_iff, Option.not_isSome_iff_eq_none]

theorem mem_keysOf_of_mem {α : Type} {m : List (Int × α)} {k : Int} {v : α}
    (h : (k, v) ∈ m) : k ∈ keysOf m :=
  List.mem_map.mpr ⟨(k, v), h, rfl⟩

theorem exists_mem_of_mem_keysOf {α : Type} {m : List (Int × α)} {k : Int}
    (h : k ∈ keysOf m) : ∃ v, (k, v) ∈ m := by
  obtain ⟨p, hp, hk⟩ := List.mem_map.mp h
  exact ⟨p.2, by rwa [show (k, p.2) = p by cases p; simp_all]⟩

theorem lookupA_eq_some_of_mem {α : Type} (m : List (Int × α)) (k : Int) (v : α)
    (hnd : NoDupKeys m) (hm : (k, v) ∈ m) : lookupA m k = some v := by
  induction m with
  | nil => simp at hm
  | cons p rest ih =>
    rw [NoDupKeys, keysOf_cons, List.nodup_cons] at hnd
    rw [lookupA_cons]
    rcases List.mem_cons.mp hm with h | h
    · rw [if_pos (by rw [← h]), ← h]
    · have hpk : ¬p.1 = k := fun hpk => hnd.1 (hpk ▸ mem_keysOf_of_mem h)
      rw [if_neg hpk]
      exact ih hnd.2 h

theorem mem_iff_lookupA {α : Type} (m : List (Int × α)) (k : Int) (v : α)
    (hnd : NoDupKeys m) : (k, v) ∈ m ↔ lookupA m k = some v :=
  ⟨lookupA_eq_some_of_mem m k v hnd, mem_of_lookupA m k v⟩

theorem updateA_nil {α : Type} (k : Int) (f : α → α) : updateA [] k f = [] := rfl

theorem updateA_cons {α : Type} (p : Int × α) (rest : List (Int × α)) (k : Int) (f : α → α) :
    updateA (p :: rest) k f = (if p.1 = k then (k, f p.2) else p) :: updateA rest k f := by
  by_cases h : p.1 = k <;> simp [updateA, h]

theorem lookupA_updateA {α : Type} (m : List (Int × α)) (k : Int) (f : α → α) (x : Int) :
    lookupA (updateA m k f) x = if k = x then (lookupA m k).map f else lookupA m x := by
  induction m with
  | nil => by_cases h : k = x <;> simp [updateA, lookupA, h]
  | cons p rest ih =>
    rw [updateA_cons]
    by_cases hpk : p.1 = k
    · rw [if_pos hpk, lookupA_cons, lookupA_cons, lookupA_cons, if_pos hpk]
      by_cases hkx : k = x
      · rw [if_pos hkx, if_pos hkx, Option.map_some']
      · rw [if_neg hkx, if_neg hkx, if_neg (hpk ▸ hkx), ih, if_neg hkx]
    · rw [if_neg hpk]
      have hk : lookupA (p :: rest) k = lookupA rest k := by rw [lookupA_cons, if_neg hpk]
      rw [hk, lookupA_cons]
      by_cases hpx : p.1 = x
      · rw [if_pos hpx, if_neg fun h => hpk (hpx.trans h.symm), lookupA_cons, if_pos hpx]
      · rw [if_neg hpx, ih, lookupA_cons, if_neg hpx]

theorem keysOf_updateA {α : Type} (m : List (Int × α)) (k : Int) (f : α → α) :
    keysOf (updateA m k f) = keysOf m := by
  induction m with
  | nil => rfl
  | cons p rest ih =>
    rw [updateA_cons, keysOf_cons, keysOf_cons, ih]
    by_cases hpk : p.1 = k
    · rw [if_pos hpk, hpk]
    · rw [if_neg hpk]

theorem mem_keysOf_upsert {α : Type} (m : List (Int × α)) (k : Int) (v : α) (x : Int) :
    x ∈ keysOf (upsert m k v) ↔ x = k ∨ x ∈ keysOf m := by
  induction m with
  | nil => simp [upsert, keysOf]
  | cons p rest ih =>
    rw [upsert_cons]
    by_cases hpk : p.1 = k
    · rw [if_pos hpk, keysOf_cons, keysOf_cons]
      simp [hpk]
    · rw [if_neg hpk, keysOf_cons, keysOf_cons, List.mem_cons, List.mem_cons, ih]
      tauto

theorem nodupKeys_upsert {α : Type} (m : List (Int × α)) (k : Int) (v : α)
    (hnd : NoDupKeys m) : NoDupKeys (upsert m k v) := by
  induction m with
  | nil => simp [upsert, NoDupKeys, keysOf]
  | cons p rest ih =>
    rw [NoDupKeys, keysOf_cons, List.nodup_cons] at hnd
    rw [NoDupKeys, upsert_cons]
    by_cases hpk : p.1 = k
    · rw [if_pos hpk, keysOf_cons, List.nodup_cons]
      exact ⟨hpk ▸ hnd.1, hnd.2⟩
    · rw [if_neg hpk, keysOf_cons, List.nodup_cons]
      refine ⟨fun hmem => ?_, ih hnd.2⟩
      rcases (mem_keysOf_upsert rest k v p.1).mp hmem with h | h
      · exact hpk h
      · exact hnd.1 h

theorem nodupKeys_updateA {α : Type} (m : List (Int × α)) (k : Int) (f : α → α)
    (hnd : NoDupKeys m) : NoDupKeys (updateA m k f) := by
  rw [NoDupKeys, keysOf_updateA]
  exact hnd

theorem lookupA_foldUpsert (motives : List (Int × String)) (mids : List Int)
    (vm : List (Int × String)) (x : Int) :
    lookupA (foldUpsert motives mids vm) x =
      if x ∈ mids then some (lookupD motives x "") else lookupA vm x := by
  induction mids generalizing vm with
  | nil => simp [foldUpsert]
  | cons mid rest ih =>
    show lookupA (foldUpsert motives rest (upsert vm mid (lookupD motives mid ""))) x = _
    rw [ih, lookupA_upsert]
    by_cases hr : x ∈ rest
    · rw [if_pos hr, if_pos (List.mem_cons_of_mem _ hr)]
    · rw [if_neg hr]
      by_cases hmx : mid = x
      · rw [if_pos hmx, hmx, if_pos (List.mem_cons_self x rest)]
      · rw [if_neg hmx, if_neg fun h => by
          rcases List.mem_cons.mp h with h | h
          · exact hmx h.symm
          · exact hr h]

theorem nodupKeys_foldUpsert (motives : List (Int × String)) (mids : List Int)
    (vm : List (Int × String)) (hnd : NoDupKeys vm) :
    NoDupKeys (foldUpsert motives mids vm) := by
  induction mids generalizing vm with
  | nil => exact hnd
  | cons mid rest ih =>
    exact ih _ (nodupKeys_upsert _ _ _ hnd)

theorem updateA_id {α : Type} (m : List (Int × α)) (k : Int) :
    updateA m k (fun c => c) = m := by
  induction m with
  | nil => rfl
  | cons p rest ih =>
    rw [updateA_cons, ih]
    by_cases hpk : p.1 = k
    · rw [if_pos hpk, ← hpk]
    · rw [if_neg hpk]

theorem updateA_comp {α : Type} (m : List (Int × α)) (k : Int) (f g : α → α) :
    updateA (updateA m k f) k g = updateA m k (fun c => g (f c)) := by
  induction m with
  | nil => rfl
  | cons p rest ih =>
    by_cases hpk : p.1 = k
    · rw [updateA_cons, if_pos hpk, updateA_cons, if_pos rfl, updateA_cons, if_pos hpk, ih]
    · rw [updateA_cons, if_neg hpk, updateA_cons, if_neg hpk, updateA_cons, if_neg hpk, ih]

theorem updateA_congr {α : Type} (m : List (Int × α)) (k : Int) (f g : α → α)
    (h : ∀ c, f c = g c) : updateA m k f = updateA m k g := by
  rw [funext h]

theorem foldl_addMotive_disabled (motives : List (Int × String)) (a : Agenda)
    (hd : agendaDisabled a = true) (mids : List Int) (m : List (Int × Impfzentrum)) :
    mids.foldl (addMotive motives a) m =
      updateA m a.PracticeID
        (fun c => { c with DisabledVaccination := foldUpsert motives mids c.DisabledVaccination }) := by
  induction mids generalizing m with
  | nil =>
    show m = _
    exact ((updateA_congr m a.PracticeID _ (fun c => c) (fun c => rfl)).trans
      (updateA_id m a.PracticeID)).symm
  | cons mid rest ih =>
    show rest.foldl (addMotive motives a) (addMotive motives a m mid) = _
    rw [ih]
    simp only [addMotive, hd, if_true]
    rw [updateA_comp]
    exact updateA_congr _ _ _ _ (fun c => rfl)

theorem foldl_addMotive_enabled (motives : List (Int × String)) (a : Agenda)
    (hd : agendaDisabled a = false) (mids : List Int) (m : List (Int × Impfzentrum)) :
    mids.foldl (addMotive motives a) m =
      updateA m a.PracticeID
        (fun c => { c with Vaccination := foldUpsert motives mids c.Vaccination }) := by
  induction mids generalizing m with
  | nil =>
    show m = _
    exact ((updateA_congr m a.PracticeID _ (fun c => c) (fun c => rfl)).trans
      (updateA_id m a.PracticeID)).symm
  | cons mid rest ih =>
    show rest.foldl (addMotive motives a) (addMotive motives a m mid) = _
    rw [ih]
    simp only [addMotive, hd, Bool.false_eq_true, if_false]
    rw [updateA_comp]
    exact updateA_congr _ _ _ _ (fun c => rfl)

theorem processAgenda_eq_none (motives : List (Int × String))
    (m : List (Int × Impfzentrum)) (a : Agenda) (h : lookupA m a.PracticeID = none) :
    processAgenda motives m a = none := by
  unfold processAgenda
  rw [h]

theorem processAgenda_eq_some (motives : List (Int × String))
    (m : List (Int × Impfzentrum)) (a : Agenda) (c0 : Impfzentrum)
    (h : lookupA m a.PracticeID = some c0) :
    processAgenda motives m a = some (updateA m a.PracticeID (applyAgenda motives a)) := by
  unfold processAgenda
  rw [h]
  refine congrArg some ?_
  by_cases hd : agendaDisabled a
  · rw [foldl_addMotive_disabled motives a hd, updateA_comp]
    exact updateA_congr _ _ _ _ (fun c => by simp [applyAgenda, hd])
  · rw [foldl_addMotive_enabled motives a (Bool.not_eq_true _ ▸ hd), updateA_comp]
    exact updateA_congr _ _ _ _ (fun c => by simp [applyAgenda, hd])

/-! ## The agenda pass as a per-center fold -/

theorem agendaFold_nil (motives : List (Int × String)) (c : Impfzentrum) :
    agendaFold motives [] c = c := rfl

theorem agendaFold_cons (motives : List (Int × String)) (a : Agenda) (l : List Agenda)
    (c : Impfzentrum) :
    agendaFold motives (a :: l) c = agendaFold motives l (applyAgenda motives a c) := rfl

theorem foldlM_processAgenda_char (motives : List (Int × String)) (as : List Agenda) :
    ∀ (m0 m : List (Int × Impfzentrum)),
      List.foldlM (processAgenda motives) m0 as = some m →
      ∀ k, lookupA m k =
        (lookupA m0 k).map (agendaFold motives (as.filter (fun a => a.PracticeID == k))) := by
  induction as with
  | nil =>
    intro m0 m h k
    have hm : m0 = m := by simpa using h
    subst hm
    cases hl : lookupA m0 k <;> simp [agendaFold]
  | cons a rest ih =>
    intro m0 m h k
    rw [List.foldlM_cons] at h
    cases hpa : processAgenda motives m0 a with
    | none => rw [hpa] at h; simp at h
    | some m1 =>
      rw [hpa] at h
      have h2 : List.foldlM (processAgenda motives) m1 rest = some m := h
      cases hl0 : lookupA m0 a.PracticeID with
      | none =>
        rw [processAgenda_eq_none motives m0 a hl0] at hpa
        exact absurd hpa (by simp)
      | some c0 =>
        rw [processAgenda_eq_some motives m0 a c0 hl0] at hpa
        have hm1 : m1 = updateA m0 a.PracticeID (applyAgenda motives a) :=
          (Option.some.injEq _ _ ▸ hpa).symm
        subst hm1
        have hrec := ih _ _ h2 k
        rw [hrec, lookupA_updateA]
        by_cases hak : a.PracticeID = k
        · rw [if_pos hak, List.filter_cons_of_pos (by simpa using hak), hak,
            Option.map_map]
          cases hl : lookupA m0 k <;> rfl
        · rw [if_neg hak, List.filter_cons_of_neg (by simpa using hak)]

theorem foldlM_processAgenda_keysOf (motives : List (Int × String)) (as : List Agenda) :
    ∀ (m0 m : List (Int × Impfzentrum)),
      List.foldlM (processAgenda motives) m0 as = some m →
      keysOf m = keysOf m0 := by
  induction as with
  | nil =>
    intro m0 m h
    have hm : m0 = m := by simpa using h
    rw [hm]
  | cons a rest ih =>
    intro m0 m h
    rw [List.foldlM_cons] at h
    cases hpa : processAgenda motives m0 a with
    | none => rw [hpa] at h; simp at h
    | some m1 =>
      rw [hpa] at h
      have h2 : List.foldlM (processAgenda motives) m1 rest = some m := h
      cases hl0 : lookupA m0 a.PracticeID with
      | none =>
        rw [processAgenda_eq_none motives m0 a hl0] at hpa
        exact absurd hpa (by simp)
      | some c0 =>
        rw [processAgenda_eq_some motives m0 a c0 hl0] at hpa
        have hm1 : m1 = updateA m0 a.PracticeID (applyAgenda motives a) :=
          (Option.some.injEq _ _ ▸ hpa).symm
        subst hm1
        rw [ih _ _ h2, keysOf_updateA]

theorem foldlM_processAgenda_isSome (motives : List (Int × String)) (as : List Agenda) :
    ∀ (m0 : List (Int × Impfzentrum)),
      (∀ a ∈ as, a.PracticeID ∈ keysOf m0) →
      ∃ m, List.foldlM (processAgenda motives) m0 as = some m := by
  induction as with
  | nil => intro m0 _; exact ⟨m0, by simp⟩
  | cons a rest ih =>
    intro m0 hin
    have hmem : a.PracticeID ∈ keysOf m0 := hin a (List.mem_cons_self a rest)
    have hsome : (lookupA m0 a.PracticeID).isSome := (lookupA_isSome_iff _ _).mpr hmem
    obtain ⟨c0, hc0⟩ := Option.isSome_iff_exists.mp hsome
    have hpa := processAgenda_eq_some motives m0 a c0 hc0
    obtain ⟨m, hm⟩ := ih (updateA m0 a.PracticeID (applyAgenda motives a))
      (fun b hb => by
        rw [keysOf_updateA]
        exact hin b (List.mem_cons_of_mem a hb))
    exact ⟨m, by rw [List.foldlM_cons, hpa]; exact hm⟩

/-! ## The place pass (`practiceByID` construction) -/

theorem firstIDsL_nil : firstIDsL [] = [] := rfl

theorem firstIDsL_cons_none (p : Place) (rest : List Place) (hp : p.PractiseIDs = []) :
    firstIDsL (p :: rest) = firstIDsL rest := by
  simp [firstIDsL, List.filterMap_cons, hp]

theorem firstIDsL_cons_some (p : Place) (rest : List Place) (k0 : Int) (t : List Int)
    (hp : p.PractiseIDs = k0 :: t) :
    firstIDsL (p :: rest) = k0 :: firstIDsL rest := by
  simp [firstIDsL, List.filterMap_cons, hp]

theorem lookupA_foldl_buildStep (ps : List Place) :
    ∀ (acc : List (Int × Impfzentrum)) (k : Int) (c : Impfzentrum),
      lookupA (ps.foldl buildStep acc) k = some c →
      lookupA acc k = some c ∨ c = ⟨k, c.Name, [], [], []⟩ := by
  induction ps with
  | nil => intro acc k c h; exact Or.inl h
  | cons p rest ih =>
    intro acc k c h
    rcases ih (buildStep acc p) k c h with h1 | h1
    · cases hp : p.PractiseIDs with
      | nil =>
        simp only [buildStep, hp] at h1
        exact Or.inl h1
      | cons k0 t =>
        simp only [buildStep, hp] at h1
        rw [lookupA_upsert] at h1
        by_cases hk : k0 = k
        · rw [if_pos hk] at h1
          right
          have hc : c = ⟨k0, p.Name, [], [], []⟩ := (Option.some.injEq _ _ ▸ h1).symm
          rw [hc, hk]
        · rw [if_neg hk] at h1
          exact Or.inl h1
    · exact Or.inr h1

theorem mem_keysOf_foldl_buildStep (ps : List Place) :
    ∀ (acc : List (Int × Impfzentrum)) (k : Int),
      k ∈ keysOf (ps.foldl buildStep acc) ↔ k ∈ keysOf acc ∨ k ∈ firstIDsL ps := by
  induction ps with
  | nil => intro acc k; simp [firstIDsL]
  | cons p rest ih =>
    intro acc k
    rw [List.foldl_cons, ih]
    cases hp : p.PractiseIDs with
    | nil =>
      rw [firstIDsL_cons_none p rest hp]
      simp only [buildStep, hp]
    | cons k0 t =>
      rw [firstIDsL_cons_some p rest k0 t hp]
      simp only [buildStep, hp]
      rw [mem_keysOf_upsert, List.mem_cons]
      tauto

theorem nodupKeys_foldl_buildStep (ps : List Place) :
    ∀ (acc : List (Int × Impfzentrum)), NoDupKeys acc →
      NoDupKeys (ps.foldl buildStep acc) := by
  induction ps with
  | nil => intro acc h; exact h
  | cons p rest ih =>
    intro acc h
    rw [List.foldl_cons]
    refine ih _ ?_
    cases hp : p.PractiseIDs with
    | nil => simpa only [buildStep, hp] using h
    | cons k0 t =>
      simp only [buildStep, hp]
      exact nodupKeys_upsert _ _ _ h

theorem nodupKeys_buildPracticeByID (ps : List Place) : NoDupKeys (buildPracticeByID ps) :=
  nodupKeys_foldl_buildStep ps [] List.nodup_nil

theorem upsert_eq_append {α : Type} (m : List (Int × α)) (k : Int) (v : α)
    (h : k ∉ keysOf m) : upsert m k v = m ++ [(k, v)] := by
  induction m with
  | nil => rfl
  | cons p rest ih =>
    rw [keysOf_cons, List.mem_cons] at h
    push_neg at h
    rw [upsert_cons, if_neg (fun hpk => h.1 hpk.symm), ih h.2, List.cons_append]

theorem keysOf_append {α : Type} (m1 m2 : List (Int × α)) :
    keysOf (m1 ++ m2) = keysOf m1 ++ keysOf m2 := by
  simp [keysOf]

theorem keysOf_foldl_buildStep_nodup (ps : List Place) :
    ∀ (acc : List (Int × Impfzentrum)), (firstIDsL ps).Nodup →
      (∀ x ∈ firstIDsL ps, x ∉ keysOf acc) →
      keysOf (ps.foldl buildStep acc) = keysOf acc ++ firstIDsL ps := by
  induction ps with
  | nil => intro acc _ _; simp [firstIDsL]
  | cons p rest ih =>
    intro acc hnd hfresh
    rw [List.foldl_cons]
    cases hp : p.PractiseIDs with
    | nil =>
      rw [firstIDsL_cons_none p rest hp] at hnd hfresh ⊢
      simp only [buildStep, hp]
      exact ih acc hnd hfresh
    | cons k0 t =>
      rw [firstIDsL_cons_some p rest k0 t hp] at hnd hfresh ⊢
      rw [List.nodup_cons] at hnd
      simp only [buildStep, hp]
      have hk0 : k0 ∉ keysOf acc := hfresh k0 (List.mem_cons_self _ _)
      rw [upsert_eq_append acc k0 _ hk0]
      have hfresh2 : ∀ x ∈ firstIDsL rest, x ∉ keysOf (acc ++ [(k0, (⟨k0, p.Name, [], [], []⟩ : Impfzentrum))]) := by
        intro x hx
        rw [keysOf_append, List.mem_append]
        rintro (hxa | hxk)
        · exact hfresh x (List.mem_cons_of_mem _ hx) hxa
        · have : x = k0 := by simpa [keysOf] using hxk
          exact hnd.1 (this ▸ hx)
      rw [ih _ hnd.2 hfresh2, keysOf_append]
      simp [keysOf, List.append_assoc]

/-! ## Field-wise description of the agenda pass -/

theorem applyAgenda_ID (motives : List (Int × String)) (a : Agenda) (c : Impfzentrum) :
    (applyAgenda motives a c).ID = c.ID := by
  by_cases hd : agendaDisabled a <;> simp [applyAgenda, hd]

theorem agendaFold_ID (motives : List (Int × String)) (l : List Agenda) :
    ∀ (c : Impfzentrum), (agendaFold motives l c).ID = c.ID := by
  induction l with
  | nil => intro c; rfl
  | cons a rest ih =>
    intro c
    rw [agendaFold_cons, ih, applyAgenda_ID]

theorem applyAgenda_Vaccination_disabled (motives : List (Int × String)) (a : Agenda)
    (c : Impfzentrum) (hd : agendaDisabled a = true) :
    (applyAgenda motives a c).Vaccination = c.Vaccination := by
  simp [applyAgenda, hd]

theorem applyAgenda_Vaccination_enabled (motives : List (Int × String)) (a : Agenda)
    (c : Impfzentrum) (hd : agendaDisabled a = false) :
    (applyAgenda motives a c).Vaccination = foldUpsert motives a.VisitMotives c.Vaccination := by
  simp [applyAgenda, hd]

theorem applyAgenda_Disabled_disabled (motives : List (Int × String)) (a : Agenda)
    (c : Impfzentrum) (hd : agendaDisabled a = true) :
    (applyAgenda motives a c).DisabledVaccination =
      foldUpsert motives a.VisitMotives c.DisabledVaccination := by
  simp [applyAgenda, hd]

theorem applyAgenda_Disabled_enabled (motives : List (Int × String)) (a : Agenda)
    (c : Impfzentrum) (hd : agendaDisabled a = false) :
    (applyAgenda motives a c).DisabledVaccination = c.DisabledVaccination := by
  simp [applyAgenda, hd]

theorem enabledWrites_nil (x : Int) : enabledWrites [] x = false := rfl

theorem enabledWrites_cons (a : Agenda) (l : List Agenda) (x : Int) :
    enabledWrites (a :: l) x =
      ((!agendaDisabled a && decide (x ∈ a.VisitMotives)) || enabledWrites l x) := rfl

theorem disabledWrites_nil (x : Int) : disabledWrites [] x = false := rfl

theorem disabledWrites_cons (a : Agenda) (l : List Agenda) (x : Int) :
    disabledWrites (a :: l) x =
      ((agendaDisabled a && decide (x ∈ a.VisitMotives)) || disabledWrites l x) := rfl

theorem lookupA_agendaFold_Vaccination (motives : List (Int × String)) (l : List Agenda) :
    ∀ (c : Impfzentrum) (x : Int),
      lookupA (agendaFold motives l c).Vaccination x =
        if enabledWrites l x then some (lookupD motives x "") else lookupA c.Vaccination x := by
  induction l with
  | nil => intro c x; simp [agendaFold_nil, enabledWrites_nil]
  | cons a rest ih =>
    intro c x
    rw [agendaFold_cons, ih]
    cases hd : agendaDisabled a with
    | true =>
      rw [applyAgenda_Vaccination_disabled motives a c hd, enabledWrites_cons, hd]
      simp
    | false =>
      rw [applyAgenda_Vaccination_enabled motives a c hd, lookupA_foldUpsert,
        enabledWrites_cons, hd]
      by_cases hm : x ∈ a.VisitMotives <;> by_cases hER : enabledWrites rest x <;>
        simp [hm, hER]

theorem lookupA_agendaFold_Disabled (motives : List (Int × String)) (l : List Agenda) :
    ∀ (c : Impfzentrum) (x : Int),
      lookupA (agendaFold motives l c).DisabledVaccination x =
        if disabledWrites l x then some (lookupD motives x "")
        else lookupA c.DisabledVaccination x := by
  induction l with
  | nil => intro c x; simp [agendaFold_nil, disabledWrites_nil]
  | cons a rest ih =>
    intro c x
    rw [agendaFold_cons, ih]
    cases hd : agendaDisabled a with
    | false =>
      rw [applyAgenda_Disabled_enabled motives a c hd, disabledWrites_cons, hd]
      simp
    | true =>
      rw [applyAgenda_Disabled_disabled motives a c hd, lookupA_foldUpsert,
        disabledWrites_cons, hd]
      by_cases hm : x ∈ a.VisitMotives <;> by_cases hDR : disabledWrites rest x <;>
        simp [hm, hDR]

/-! ## The motive-name map -/

theorem lookupA_foldl_motives (ms : List VisitMotive) :
    ∀ (acc : List (Int × String)) (x : Int), (∀ vm ∈ ms, vm.ID ≠ x) →
      lookupA (ms.foldl (fun acc m => upsert acc m.ID m.Name) acc) x = lookupA acc x := by
  induction ms with
  | nil => intro acc x _; rfl
  | cons vm rest ih =>
    intro acc x h
    rw [List.foldl_cons, ih _ x (fun u hu => h u (List.mem_cons_of_mem _ hu)), lookupA_upsert,
      if_neg (h vm (List.mem_cons_self _ _))]

theorem lookupD_buildMotiveByID_of_unknown (ms : List VisitMotive) (x : Int)
    (h : ∀ vm ∈ ms, vm.ID ≠ x) : lookupD (buildMotiveByID ms) x "" = "" := by
  rw [lookupD, buildMotiveByID, lookupA_foldl_motives ms [] x h]
  rfl

/-! ## Classification characterized center by center -/

theorem classifyMap_nodupKeys (ciz : CIZRespone) (m : List (Int × Impfzentrum))
    (h : classifyMap ciz = some m) : NoDupKeys m := by
  have h' : List.foldlM (processAgenda (buildMotiveByID ciz.Data.VisitMotives))
      (buildPracticeByID ciz.Data.Places) ciz.Data.Agendas = some m := h
  have hk := foldlM_processAgenda_keysOf _ _ _ _ h'
  rw [NoDupKeys, hk]
  exact nodupKeys_buildPracticeByID _

theorem classify_mem_char (ciz : CIZRespone) (centers : List Impfzentrum)
    (h : classifyImpfzentren ciz = some centers) (c : Impfzentrum) (hc : c ∈ centers) :
    ∃ (m : List (Int × Impfzentrum)) (nm : String),
      classifyMap ciz = some m ∧ (c.ID, c) ∈ m ∧
      c = agendaFold (buildMotiveByID ciz.Data.VisitMotives)
            (ciz.Data.Agendas.filter (fun a => a.PracticeID == c.ID))
            ⟨c.ID, nm, [], [], []⟩ := by
  unfold classifyImpfzentren at h
  cases hm : classifyMap ciz with
  | none => rw [hm] at h; simp at h
  | some m =>
    rw [hm] at h
    simp only [Option.map_some'] at h
    have hcent : centers = m.map Prod.snd := (Option.some.inj h).symm
    subst hcent
    obtain ⟨⟨k, c'⟩, hp, hpc⟩ := List.mem_map.mp hc
    have hpc' : c' = c := hpc
    rw [hpc'] at hp
    have hnd : NoDupKeys m := classifyMap_nodupKeys ciz m hm
    have hlk : lookupA m k = some c := lookupA_eq_some_of_mem m k c hnd hp
    have hfold : List.foldlM (processAgenda (buildMotiveByID ciz.Data.VisitMotives))
        (buildPracticeByID ciz.Data.Places) ciz.Data.Agendas = some m := hm
    have hchar := foldlM_processAgenda_char (buildMotiveByID ciz.Data.VisitMotives)
      ciz.Data.Agendas _ m hfold k
    rw [hlk] at hchar
    cases hl0 : lookupA (buildPracticeByID ciz.Data.Places) k with
    | none => rw [hl0] at hchar; simp at hchar
    | some c0 =>
      rw [hl0] at hchar
      simp only [Option.map_some'] at hchar
      have hceq : c = agendaFold (buildMotiveByID ciz.Data.VisitMotives)
          (ciz.Data.Agendas.filter (fun a => a.PracticeID == k)) c0 := Option.some.inj hchar
      have hsh := lookupA_foldl_buildStep ciz.Data.Places [] k c0 hl0
      rcases hsh with habs | hsh
      · exact absurd habs (by simp [lookupA])
      · have hid : c.ID = k := by rw [hceq, agendaFold_ID, hsh]
        refine ⟨m, c0.Name, rfl, ?_, ?_⟩
        · rw [hid]; exact hp
        · rw [hid, hceq, ← hsh]

theorem center_Vaccination_lookup (ciz : CIZRespone) (centers : List Impfzentrum)
    (h : classifyImpfzentren ciz = some centers) (c : Impfzentrum) (hc : c ∈ centers) (x : Int) :
    lookupA c.Vaccination x =
      if enabledWrites (ciz.Data.Agendas.filter (fun a => a.PracticeID == c.ID)) x
      then some (lookupD (buildMotiveByID ciz.Data.VisitMotives) x "") else none := by
  obtain ⟨m, nm, hm, hmem, hcc⟩ := classify_mem_char ciz centers h c hc
  conv_lhs => rw [hcc]
  rw [lookupA_agendaFold_Vaccination]
  exact if_congr Iff.rfl rfl rfl

theorem center_Disabled_lookup (ciz : CIZRespone) (centers : List Impfzentrum)
    (h : classifyImpfzentren ciz = some centers) (c : Impfzentrum) (hc : c ∈ centers) (x : Int) :
    lookupA c.DisabledVaccination x =
      if disabledWrites (ciz.Data.Agendas.filter (fun a => a.PracticeID == c.ID)) x
      then some (lookupD (buildMotiveByID ciz.Data.VisitMotives) x "") else none := by
  obtain ⟨m, nm, hm, hmem, hcc⟩ := classify_mem_char ciz centers h c hc
  conv_lhs => rw [hcc]
  rw [lookupA_agendaFold_Disabled]
  exact if_congr Iff.rfl rfl rfl

theorem enabledWrites_filter_iff (agendas : List Agenda) (k x : Int) :
    enabledWrites (agendas.filter (fun a => a.PracticeID == k)) x = true ↔
      ∃ a ∈ agendas, a.PracticeID = k ∧ agendaDisabled a = false ∧ x ∈ a.VisitMotives := by
  rw [enabledWrites, List.any_eq_true]
  constructor
  · rintro ⟨a, ha, hcond⟩
    rw [List.mem_filter] at ha
    rw [Bool.and_eq_true, Bool.not_eq_true', decide_eq_true_eq] at hcond
    exact ⟨a, ha.1, by simpa using ha.2, hcond.1, hcond.2⟩
  · rintro ⟨a, ha, hk, hd, hx⟩
    refine ⟨a, List.mem_filter.mpr ⟨ha, by simpa using hk⟩, ?_⟩
    rw [Bool.and_eq_true, Bool.not_eq_true', decide_eq_true_eq]
    exact ⟨hd, hx⟩

theorem disabledWrites_filter_iff (agendas : List Agenda) (k x : Int) :
    disabledWrites (agendas.filter (fun a => a.PracticeID == k)) x = true ↔
      ∃ a ∈ agendas, a.PracticeID = k ∧ agendaDisabled a = true ∧ x ∈ a.VisitMotives := by
  rw [disabledWrites, List.any_eq_true]
  constructor
  · rintro ⟨a, ha, hcond⟩
    rw [List.mem_filter] at ha
    rw [Bool.and_eq_true, decide_eq_true_eq] at hcond
    exact ⟨a, ha.1, by simpa using ha.2, hcond.1, hcond.2⟩
  · rintro ⟨a, ha, hk, hd, hx⟩
    refine ⟨a, List.mem_filter.mpr ⟨ha, by simpa using hk⟩, ?_⟩
    rw [Bool.and_eq_true, decide_eq_true_eq]
    exact ⟨hd, hx⟩

/-! ## What one center contributes to the scrape cycle -/

theorem presence_false_mem (fetch : FetchOracle) (now : Int) (c : Impfzentrum)
    (x : Int) (nm : String) (h : (x, nm) ∈ c.Vaccination) :
    Sample.presence c.Name nm "false" 1 ∈ (collectCenter fetch now c).1 := by
  unfold collectCenter
  rw [List.mem_append]
  left
  rw [List.mem_flatten]
  refine ⟨CollectAvailability fetch now c x nm ++ [Sample.presence c.Name nm "false" 1], ?_, ?_⟩
  · exact List.mem_map.mpr ⟨(x, nm), h, rfl⟩
  · exact List.mem_append.mpr (Or.inr (List.mem_singleton.mpr rfl))

theorem presence_true_mem (fetch : FetchOracle) (now : Int) (c : Impfzentrum)
    (x : Int) (nm : String) (h : (x, nm) ∈ c.DisabledVaccination) :
    Sample.presence c.Name nm "true" 1 ∈ (collectCenter fetch now c).1 := by
  unfold collectCenter
  rw [List.mem_append]
  right
  exact List.mem_map.mpr ⟨(x, nm), h, rfl⟩

theorem mem_CollectAvailability (fetch : FetchOracle) (now : Int) (c : Impfzentrum)
    (mid : Int) (nm : String) (s : Sample)
    (h : s ∈ CollectAvailability fetch now c mid nm) :
    ∃ q, s = Sample.nextSlot c.Name nm q := by
  unfold CollectAvailability at h
  split at h
  · simp at h
  · split at h
    · simp at h
    · split at h
      · simp at h
      · rw [List.mem_singleton] at h
        exact ⟨_, h⟩

theorem nextSlot_mem_collectCenter (fetch : FetchOracle) (now : Int) (c : Impfzentrum)
    (n t : String) (q : ℚ) (h : Sample.nextSlot n t q ∈ (collectCenter fetch now c).1) :
    n = c.Name ∧ ∃ mid, (mid, t) ∈ c.Vaccination := by
  unfold collectCenter at h
  rw [List.mem_append] at h
  rcases h with h | h
  · rw [List.mem_flatten] at h
    obtain ⟨l, hl, hs⟩ := h
    obtain ⟨p, hp, hpl⟩ := List.mem_map.mp hl
    rw [← hpl, List.mem_append] at hs
    rcases hs with hs | hs
    · obtain ⟨q', hq⟩ := mem_CollectAvailability fetch now c p.1 p.2 _ hs
      obtain ⟨h1, h2, h3⟩ := Sample.nextSlot.inj hq
      refine ⟨h1, p.1, ?_⟩
      rw [h2]
      exact hp
    · rw [List.mem_singleton] at hs
      exact absurd hs (by simp)
  · obtain ⟨p, hp, hpl⟩ := List.mem_map.mp h
    exact absurd hpl (by simp)

theorem mem_collectCenter_fetches (fetch : FetchOracle) (now : Int) (c : Impfzentrum)
    (f : Int × Int × List Int) (h : f ∈ (collectCenter fetch now c).2) :
    ∃ p ∈ c.Vaccination, f = (c.ID, p.1, c.AgendaIDs) := by
  unfold collectCenter at h
  obtain ⟨p, hp, hpf⟩ := List.mem_map.mp h
  exact ⟨p, hp, hpf.symm⟩

theorem Impfzentren_ok (ciz : CIZRespone) :
    Impfzentren (Except.ok ciz) = (classifyImpfzentren ciz).map Except.ok := rfl

theorem Collect_ok_eq (ciz : CIZRespone) (centers : List Impfzentrum)
    (fetch : FetchOracle) (now : Int) (h : classifyImpfzentren ciz = some centers) :
    Collect (Except.ok ciz) fetch now =
      some ((centers.map (fun c => (collectCenter fetch now c).1)).flatten,
        (centers.map (fun c => (collectCenter fetch now c).2)).flatten) := by
  have h1 : Impfzentren (Except.ok ciz) = some (Except.ok centers) := by
    rw [Impfzentren_ok, h]
    rfl
  unfold Collect
  rw [h1]

/-! ## Claim C4 -/

/-- C4: for every availability response whose windows each carry a date, the
code's resolved next date is exactly the spec's three-step resolution: the
date of the first window with a non-empty slot list; else the top-level
`next_slot` hint; else the empty string, i.e. "no next date", which is a
regular value and not an error. -/
theorem c4_next_date_resolution (r : AvailbilitiesResponse)
    (hdates : ∀ a ∈ r.Availabilities, a.Date ≠ "") :
    resolveNextDate r = specNextDate r := by
  unfold resolveNextDate specNextDate firstSlotDate
  cases hf : r.Availabilities.find? (fun a => decide (0 < a.Slots.length)) with
  | none => simp
  | some a =>
    have ha : a.Date ≠ "" := hdates a (List.mem_of_find?_eq_some hf)
    simp [ha]

/-- C4 witness: on the spec's section-8 example the first non-empty window
wins and the resolved date is 2024-01-12. -/
theorem c4_next_date_resolution_witness :
    (∀ a ∈ exampleResp.Availabilities, a.Date ≠ "") ∧
    resolveNextDate exampleResp = "2024-01-12" ∧
    specNextDate exampleResp = "2024-01-12" :=
  ⟨by decide, by rw [c4_next_date_resolution exampleResp (by decide)]; rfl, rfl⟩

/-! ## Claim C7 -/

/-- C7: when the catalog fetch fails with any of the three error kinds, the
cycle emits zero metric samples, performs zero availability fetches, and
`Collect` returns normally (`some`), so no error or panic escapes the
orchestrator. -/
theorem c7_catalog_failure_no_samples (e : FetchError) (fetch : FetchOracle) (now : Int) :
    Collect (Except.error e) fetch now = some ([], []) := rfl

/-! ## Claim C1 -/

/-- C1: the code does not skip an orphan agenda.  In `dOrphan` the agenda
references practice id 2, no place lists 2 first, and the classifier hits the
nil-pointer dereference of `practiceByID[a.PracticeID]`, modelled as `none`:
the scrape cycle crashes instead of warning and continuing. -/
theorem c1_orphan_agenda_crashes :
    (2 : Int) ∉ firstIDsL dOrphan.Data.Places ∧
    dOrphan.Data.Agendas.map Agenda.PracticeID = [2] ∧
    classifyImpfzentren dOrphan = none :=
  ⟨by decide, rfl, rfl⟩

/-! ## Counterexamples from the overlap catalog -/

/-- C2 counterexample: on `dOverlap` the classifier leaves motive 5 in both
the enabled and the disabled map of the same center, so the two mappings are
not disjoint. -/
theorem c2_counterexample :
    classifyImpfzentren dOverlap = some [cOverlap] ∧
    (5 : Int) ∈ keysOf cOverlap.Vaccination ∧
    (5 : Int) ∈ keysOf cOverlap.DisabledVaccination :=
  ⟨rfl, by decide, by decide⟩

/-- C3 counterexample: in `dOverlap` the last agenda (id 11) is non-disabling
and references motive 5 for practice 1, and no later agenda exists at all, yet
motive 5 still sits in the disabled map, because the earlier disabling write
of agenda 10 is never removed. -/
theorem c3_counterexample :
    dOverlap.Data.Agendas.getLast? = some ⟨11, [5], 1, false, false⟩ ∧
    agendaDisabled ⟨11, [5], 1, false, false⟩ = false ∧
    (5 : Int) ∈ (⟨11, [5], 1, false, false⟩ : Agenda).VisitMotives ∧
    (⟨11, [5], 1, false, false⟩ : Agenda).PracticeID = 1 ∧
    classifyImpfzentren dOverlap = some [cOverlap] ∧ cOverlap.ID = 1 ∧
    (5 : Int) ∈ keysOf cOverlap.DisabledVaccination :=
  ⟨rfl, rfl, by decide, rfl, rfl, rfl, by decide⟩

/-- C5 counterexample: motive 5 is in the disabled map of the center built
from `dOverlap`, yet the scrape cycle does perform an availability fetch for
the pair (1, 5) — because the same motive is also in the enabled map — and it
also emits a presence sample with disabled set to false for it. -/
theorem c5_counterexample :
    classifyImpfzentren dOverlap = some [cOverlap] ∧
    (5 : Int) ∈ keysOf cOverlap.DisabledVaccination ∧
    Collect (Except.ok dOverlap) oFail 0 =
      some ([Sample.presence "Arena" "CoronaVax" "false" 1,
             Sample.presence "Arena" "CoronaVax" "true" 1],
            [(1, 5, [10, 11])]) :=
  ⟨rfl, by decide, rfl⟩

/-- C8 counterexample: in `dDup` both places have at least one practice id and
every agenda (there are none) matches a place, but both places share first
practice id 7, so classification yields a single center instead of one per
place; the later place wins. -/
theorem c8_counterexample :
    (∀ a ∈ dDup.Data.Agendas, a.PracticeID ∈ firstIDsL dDup.Data.Places) ∧
    (dDup.Data.Places.filter (fun p => decide (1 ≤ p.PractiseIDs.length))).length = 2 ∧
    classifyImpfzentren dDup = some [⟨7, "B", [], [], []⟩] :=
  ⟨by decide, by decide, rfl⟩

/-! ## Claim C2 -/

/-- C2 (amended): for every catalog the classifier accepts, and provided no
vaccination-type id is referenced both by a disabling and by a non-disabling
agenda of the same practice, the enabled and disabled mappings of every
produced center are disjoint.  Without that proviso the maps can overlap,
because the classifier writes into one map without removing the type from the
other: see the counterexample. -/
theorem c2_enabled_disabled_disjoint (ciz : CIZRespone) (centers : List Impfzentrum)
    (h : classifyImpfzentren ciz = some centers)
    (hnc : ∀ a ∈ ciz.Data.Agendas, ∀ b ∈ ciz.Data.Agendas, a.PracticeID = b.PracticeID →
      ∀ x ∈ a.VisitMotives, x ∈ b.VisitMotives →
        agendaDisabled a = agendaDisabled b) :
    ∀ c ∈ centers, ∀ x : Int, x ∈ keysOf c.Vaccination → x ∉ keysOf c.DisabledVaccination := by
  intro c hc x hxV hxD
  have hV : (lookupA c.Vaccination x).isSome = true := (lookupA_isSome_iff _ _).mpr hxV
  have hD : (lookupA c.DisabledVaccination x).isSome = true := (lookupA_isSome_iff _ _).mpr hxD
  rw [center_Vaccination_lookup ciz centers h c hc x] at hV
  rw [center_Disabled_lookup ciz centers h c hc x] at hD
  by_cases hE : enabledWrites (ciz.Data.Agendas.filter (fun a => a.PracticeID == c.ID)) x = true
  · by_cases hDW : disabledWrites (ciz.Data.Agendas.filter (fun a => a.PracticeID == c.ID)) x = true
    · obtain ⟨a, ha, hak, had, hax⟩ := (enabledWrites_filter_iff _ _ _).mp hE
      obtain ⟨b, hb, hbk, hbd, hbx⟩ := (disabledWrites_filter_iff _ _ _).mp hDW
      have hab := hnc a ha b hb (hak.trans hbk.symm) x hax hbx
      rw [had, hbd] at hab
      exact absurd hab (by simp)
    · rw [if_neg hDW] at hD
      simp at hD
  · rw [if_neg hE] at hV
    simp at hV

/-- C2 witness: on `dSimple` the no-conflict condition holds, motive 5 is in
the enabled map of the one produced center and not in its disabled map. -/
theorem c2_enabled_disabled_disjoint_witness :
    classifyImpfzentren dSimple = some [cSimple] ∧
    (5 : Int) ∈ keysOf cSimple.Vaccination ∧
    (5 : Int) ∉ keysOf cSimple.DisabledVaccination :=
  ⟨rfl, by decide,
    c2_enabled_disabled_disjoint dSimple [cSimple] rfl (by decide) cSimple
      (by decide) 5 (by decide)⟩

/-! ## Claim C3 -/

/-- C3 (amended): for every catalog the classifier accepts, every produced
center and every type id referenced by at least one non-disabling agenda of
that center and by no disabling agenda of that center at all, the type id is
in the enabled map and not in the disabled map.  The original "no later
disabling agenda" condition is not enough, because an earlier disabling write
is never removed: see the counterexample. -/
theorem c3_enabled_not_disabled (ciz : CIZRespone) (centers : List Impfzentrum)
    (h : classifyImpfzentren ciz = some centers) :
    ∀ c ∈ centers, ∀ x : Int,
      (∃ a ∈ ciz.Data.Agendas, a.PracticeID = c.ID ∧ agendaDisabled a = false ∧
        x ∈ a.VisitMotives) →
      (∀ a ∈ ciz.Data.Agendas, a.PracticeID = c.ID → x ∈ a.VisitMotives →
        agendaDisabled a = false) →
      x ∈ keysOf c.Vaccination ∧ x ∉ keysOf c.DisabledVaccination := by
  intro c hc x hex hall
  constructor
  · rw [← lookupA_isSome_iff, center_Vaccination_lookup ciz centers h c hc x,
      if_pos ((enabledWrites_filter_iff _ _ _).mpr hex)]
    rfl
  · rw [← lookupA_isSome_iff, center_Disabled_lookup ciz centers h c hc x]
    have hDW : ¬disabledWrites (ciz.Data.Agendas.filter (fun a => a.PracticeID == c.ID)) x = true := by
      intro hDW
      obtain ⟨b, hb, hbk, hbd, hbx⟩ := (disabledWrites_filter_iff _ _ _).mp hDW
      have hfalse := hall b hb hbk hbx
      rw [hbd] at hfalse
      exact absurd hfalse (by simp)
    rw [if_neg hDW]
    simp

/-- C3 witness: on `dSimple`, motive 5 is referenced by the one non-disabling
agenda and by no disabling agenda, and it lands in the enabled map only. -/
theorem c3_enabled_not_disabled_witness :
    classifyImpfzentren dSimple = some [cSimple] ∧
    ((5 : Int) ∈ keysOf cSimple.Vaccination ∧ (5 : Int) ∉ keysOf cSimple.DisabledVaccination) :=
  ⟨rfl, c3_enabled_not_disabled dSimple [cSimple] rfl cSimple (by decide) 5
    (by decide) (by decide)⟩

/-! ## Claim C10 -/

/-- C10: a vaccination-type id with no entry in the catalog's visit-motive
list is still inserted into the center's enabled or disabled mapping with the
empty string as its resolved name, and the presence sample for it carries the
empty type-name label instead of being dropped. -/
theorem c10_unknown_motive_empty_name (ciz : CIZRespone) (centers : List Impfzentrum)
    (h : classifyImpfzentren ciz = some centers) (fetch : FetchOracle) (now : Int) :
    ∀ c ∈ centers, ∀ a ∈ ciz.Data.Agendas, a.PracticeID = c.ID →
      ∀ x ∈ a.VisitMotives, (∀ vm ∈ ciz.Data.VisitMotives, vm.ID ≠ x) →
      (agendaDisabled a = false →
        (x, "") ∈ c.Vaccination ∧
        Sample.presence c.Name "" "false" 1 ∈ (collectCenter fetch now c).1) ∧
      (agendaDisabled a = true →
        (x, "") ∈ c.DisabledVaccination ∧
        Sample.presence c.Name "" "true" 1 ∈ (collectCenter fetch now c).1) := by
  intro c hc a ha hak x hx hunk
  have hname : lookupD (buildMotiveByID ciz.Data.VisitMotives) x "" = "" :=
    lookupD_buildMotiveByID_of_unknown _ _ hunk
  constructor
  · intro hd
    have hlk : lookupA c.Vaccination x = some "" := by
      rw [center_Vaccination_lookup ciz centers h c hc x,
        if_pos ((enabledWrites_filter_iff _ _ _).mpr ⟨a, ha, hak, hd, hx⟩), hname]
    have hmem : (x, "") ∈ c.Vaccination := mem_of_lookupA _ _ _ hlk
    exact ⟨hmem, presence_false_mem fetch now c x "" hmem⟩
  · intro hd
    have hlk : lookupA c.DisabledVaccination x = some "" := by
      rw [center_Disabled_lookup ciz centers h c hc x,
        if_pos ((disabledWrites_filter_iff _ _ _).mpr ⟨a, ha, hak, hd, hx⟩), hname]
    have hmem : (x, "") ∈ c.DisabledVaccination := mem_of_lookupA _ _ _ hlk
    exact ⟨hmem, presence_true_mem fetch now c x "" hmem⟩

/-- C10 witness: on `dNoMotive` the unknown motive 5 is stored with name `""`
and its presence sample carries the empty type label. -/
theorem c10_unknown_motive_empty_name_witness :
    classifyImpfzentren dNoMotive = some [cNoMotive] ∧
    ((5 : Int), "") ∈ cNoMotive.Vaccination ∧
    Sample.presence "Arena" "" "false" 1 ∈ (collectCenter oFail 0 cNoMotive).1 := by
  have h := c10_unknown_motive_empty_name dNoMotive [cNoMotive] rfl oFail 0 cNoMotive
    (by decide) ⟨11, [5], 1, false, false⟩ (by decide) rfl 5 (by decide) (by decide)
  exact ⟨rfl, (h.1 rfl).1, (h.1 rfl).2⟩

/-! ## Claim C5 -/

/-- Two centers produced by one classification with the same identifier are
the same center: the practice map never repeats a key, and a center's ID is
its key. -/
theorem classify_ID_inj (ciz : CIZRespone) (centers : List Impfzentrum)
    (h : classifyImpfzentren ciz = some centers) :
    ∀ c ∈ centers, ∀ c' ∈ centers, c.ID = c'.ID → c = c' := by
  intro c hc c' hc' hid
  obtain ⟨m, nm, hm, hmem, _⟩ := classify_mem_char ciz centers h c hc
  obtain ⟨m', nm', hm', hmem', _⟩ := classify_mem_char ciz centers h c' hc'
  rw [hm] at hm'
  have hm2 : m' = m := (Option.some.inj hm').symm
  rw [hm2] at hmem'
  have hnd := classifyMap_nodupKeys ciz m hm
  have h1 := lookupA_eq_some_of_mem m c.ID c hnd hmem
  have h2 := lookupA_eq_some_of_mem m c'.ID c' hnd hmem'
  rw [← hid] at h2
  exact Option.some.inj (h1.symm.trans h2)

/-- C5 (amended): for every accepted catalog and produced center, and every
type id that is in the disabled map and not also in the enabled map — the
claim as stated fails when a type is in both, see the counterexample — the
cycle issues no availability fetch for that (center, type) pair, emits a
presence sample with disabled="true" for it, and every next-slot sample of
that center stems from an enabled type id different from it. -/
theorem c5_disabled_pair_no_fetch (ciz : CIZRespone) (centers : List Impfzentrum)
    (h : classifyImpfzentren ciz = some centers) (fetch : FetchOracle) (now : Int)
    (out : List Sample × List (Int × Int × List Int))
    (hout : Collect (Except.ok ciz) fetch now = some out) :
    ∀ c ∈ centers, ∀ x : Int, x ∈ keysOf c.DisabledVaccination →
      x ∉ keysOf c.Vaccination →
      (∀ f ∈ out.2, ¬(f.1 = c.ID ∧ f.2.1 = x)) ∧
      (∃ nm, (x, nm) ∈ c.DisabledVaccination ∧
        Sample.presence c.Name nm "true" 1 ∈ (collectCenter fetch now c).1) ∧
      (∀ nm q, Sample.nextSlot c.Name nm q ∈ (collectCenter fetch now c).1 →
        ∃ x', (x', nm) ∈ c.Vaccination ∧ x' ≠ x) := by
  intro c hc x hxD hxV
  have hco := Collect_ok_eq ciz centers fetch now h
  rw [hout] at hco
  have hoeq := Option.some.inj hco
  refine ⟨?_, ?_, ?_⟩
  · intro f hf hfcx
    rw [hoeq] at hf
    rw [List.mem_flatten] at hf
    obtain ⟨l, hl, hfl⟩ := hf
    obtain ⟨c', hc', hcl⟩ := List.mem_map.mp hl
    rw [← hcl] at hfl
    obtain ⟨p, hp, hpf⟩ := mem_collectCenter_fetches fetch now c' f hfl
    have hcc : c' = c := classify_ID_inj ciz centers h c' hc' c hc (by
      rw [hpf] at hfcx
      exact hfcx.1)
    rw [hcc] at hp hpf
    rw [hpf] at hfcx
    exact hxV (hfcx.2 ▸ mem_keysOf_of_mem hp)
  · obtain ⟨nm, hmem⟩ := exists_mem_of_mem_keysOf hxD
    exact ⟨nm, hmem, presence_true_mem fetch now c x nm hmem⟩
  · intro nm q hs
    obtain ⟨hn, mid, hmid⟩ := nextSlot_mem_collectCenter fetch now c c.Name nm q hs
    refine ⟨mid, hmid, fun hmx => ?_⟩
    exact hxV (hmx ▸ mem_keysOf_of_mem hmid)

/-- C5 witness: on `dDisabled` the cycle issues no fetch at all, and the
disabled pair gets exactly its presence sample with disabled="true". -/
theorem c5_disabled_pair_no_fetch_witness :
    Collect (Except.ok dDisabled) oFail 0 =
      some ([Sample.presence "Arena" "CoronaVax" "true" 1], []) ∧
    (∃ nm, ((5 : Int), nm) ∈ cDisabled.DisabledVaccination ∧
      Sample.presence cDisabled.Name nm "true" 1 ∈ (collectCenter oFail 0 cDisabled).1) := by
  have h := c5_disabled_pair_no_fetch dDisabled [cDisabled] rfl oFail 0
    ([Sample.presence "Arena" "CoronaVax" "true" 1], []) rfl cDisabled (by decide) 5
    (by decide) (by decide)
  exact ⟨rfl, h.2.1⟩

/-! ## Claim C6 -/

/-- C6: if the availability oracle fails for the pair (X, Y) — a fetch error,
or a resolved date that does not parse — while agreeing with a second oracle
on every other pair, then every center still gets its presence sample for
every enabled motive, the failing pair contributes no sample from its fetch,
and every other pair's fetch contribution is exactly what the second oracle
would produce. -/
theorem c6_pair_failure_isolated (centers : List Impfzentrum) (o o' : FetchOracle)
    (now : Int) (X Y : Int)
    (hagree : ∀ p m aids, ¬(p = X ∧ m = Y) → o p m aids = o' p m aids)
    (hfail : ∀ aids, (∃ e, o X Y aids = Except.error e) ∨
      (∀ r, o X Y aids = Except.ok r →
        resolveNextDate r ≠ "" ∧ parseDate (resolveNextDate r) = none)) :
    ∀ c ∈ centers, ∀ x nm, (x, nm) ∈ c.Vaccination →
      Sample.presence c.Name nm "false" 1 ∈ (collectCenter o now c).1 ∧
      (c.ID = X → x = Y → CollectAvailability o now c x nm = []) ∧
      (¬(c.ID = X ∧ x = Y) →
        CollectAvailability o now c x nm = CollectAvailability o' now c x nm) := by
  intro c hc x nm hmem
  refine ⟨presence_false_mem o now c x nm hmem, ?_, ?_⟩
  · intro hcX hxY
    unfold CollectAvailability
    rcases hfail c.AgendaIDs with ⟨e, he⟩ | hpf
    · rw [hcX, hxY, he]
    · cases hor : o c.ID x c.AgendaIDs with
      | error e => rfl
      | ok r =>
        rw [hcX, hxY] at hor
        obtain ⟨hne, hpn⟩ := hpf r hor
        show (if resolveNextDate r == "" then []
          else match parseDate (resolveNextDate r) with
            | none => []
            | some (y, mo, d) =>
              [Sample.nextSlot c.Name nm (durationDays (timeSub (unixMidnight y mo d) now))]) = []
        rw [if_neg (by simpa using hne), hpn]
  · intro hne
    unfold CollectAvailability
    rw [hagree c.ID x c.AgendaIDs hne]

/-- C6 witness: with the always-failing oracle as the failing one and `oGood`
as the healthy one, the enabled pair (1, 5) of `cW` keeps its presence sample
and contributes no next-slot sample. -/
theorem c6_pair_failure_isolated_witness :
    Sample.presence "Arena" "CoronaVax" "false" 1 ∈ (collectCenter oFail 0 cW).1 ∧
    CollectAvailability oFail 0 cW 5 "CoronaVax" = [] := by
  have h := c6_pair_failure_isolated [cW] oFail oGood 0 1 5
    (fun p m aids hpm => by
      simp only [oFail, oGood]
      rw [if_neg hpm])
    (fun aids => Or.inl ⟨FetchError.network, rfl⟩)
    cW (by decide) 5 "CoronaVax" (by decide)
  exact ⟨h.1, h.2.1 rfl rfl⟩

/-! ## Claim C8 -/

/-- C8 (amended): if every agenda's practice id is the first practice id of
some place and the first practice ids of the places are pairwise distinct —
the claim as stated fails when two places share a first practice id, see the
counterexample — then classification succeeds and the produced map holds
exactly one center per place with at least one practice id, keyed in order by
those first practice ids, with each center's integer identifier equal to its
key; places without practice ids contribute nothing. -/
theorem c8_one_center_per_place (ciz : CIZRespone)
    (hmatch : ∀ a ∈ ciz.Data.Agendas, a.PracticeID ∈ firstIDsL ciz.Data.Places)
    (hnodup : (firstIDsL ciz.Data.Places).Nodup) :
    ∃ m, classifyMap ciz = some m ∧
      classifyImpfzentren ciz = some (m.map Prod.snd) ∧
      keysOf m = firstIDsL ciz.Data.Places ∧
      ∀ p ∈ m, p.2.ID = p.1 := by
  have hkeys0 : keysOf (buildPracticeByID ciz.Data.Places) = firstIDsL ciz.Data.Places := by
    have hk := keysOf_foldl_buildStep_nodup ciz.Data.Places [] hnodup
      (fun x _ hx => by simp [keysOf] at hx)
    simpa [buildPracticeByID] using hk
  obtain ⟨m, hm⟩ := foldlM_processAgenda_isSome (buildMotiveByID ciz.Data.VisitMotives)
    ciz.Data.Agendas (buildPracticeByID ciz.Data.Places)
    (fun a ha => by rw [hkeys0]; exact hmatch a ha)
  have hcm : classifyMap ciz = some m := hm
  have hkeys : keysOf m = firstIDsL ciz.Data.Places := by
    rw [foldlM_processAgenda_keysOf _ _ _ _ hm, hkeys0]
  refine ⟨m, hcm, ?_, hkeys, ?_⟩
  · unfold classifyImpfzentren
    rw [hcm]
    rfl
  · intro p hp
    have hnd := classifyMap_nodupKeys ciz m hcm
    have hlk : lookupA m p.1 = some p.2 := lookupA_eq_some_of_mem m p.1 p.2 hnd hp
    have hfold : List.foldlM (processAgenda (buildMotiveByID ciz.Data.VisitMotives))
        (buildPracticeByID ciz.Data.Places) ciz.Data.Agendas = some m := hcm
    have hchar := foldlM_processAgenda_char _ _ _ _ hfold p.1
    rw [hlk] at hchar
    cases hl0 : lookupA (buildPracticeByID ciz.Data.Places) p.1 with
    | none => rw [hl0] at hchar; simp at hchar
    | some c0 =>
      rw [hl0] at hchar
      simp only [Option.map_some'] at hchar
      have hceq := Option.some.inj hchar
      rcases lookupA_foldl_buildStep ciz.Data.Places [] p.1 c0 hl0 with habs | hsh
      · exact absurd habs (by simp [lookupA])
      · rw [hceq, agendaFold_ID, hsh]

/-- C8 witness: on `dSimple` all hypotheses hold and the produced map is the
expected one-center map. -/
theorem c8_one_center_per_place_witness :
    ∃ m, classifyMap dSimple = some m ∧
      classifyImpfzentren dSimple = some (m.map Prod.snd) ∧
      keysOf m = firstIDsL dSimple.Data.Places ∧
      ∀ p ∈ m, p.2.ID = p.1 :=
  c8_one_center_per_place dSimple (by decide) (by decide)

/-! ## Claim C9 -/

/-- C9: whenever the pair's fetch succeeds, the resolved date parses as the
civil date `y-mo-d`, and the duration to that date's midnight fits in Go's
`Duration`, the pair emits exactly one next-slot sample whose value is the
signed, unrounded number of seconds from `now` to that midnight divided by
3600 and then by 24 — fractional days, negative when the date is past. -/
theorem c9_next_slot_value (fetch : FetchOracle) (now : Int) (c : Impfzentrum)
    (x : Int) (nm : String) (r : AvailbilitiesResponse) (y mo d : Nat)
    (hok : fetch c.ID x c.AgendaIDs = Except.ok r)
    (hparse : parseDate (resolveNextDate r) = some (y, mo, d))
    (hlo : minDuration ≤ (unixMidnight y mo d - now) * 1000000000)
    (hhi : (unixMidnight y mo d - now) * 1000000000 ≤ maxDuration) :
    CollectAvailability fetch now c x nm =
      [Sample.nextSlot c.Name nm ((((unixMidnight y mo d : ℚ) - (now : ℚ)) / 3600) / 24)] := by
  have hne : resolveNextDate r ≠ "" := by
    intro hemp
    rw [hemp] at hparse
    rw [show parseDate "" = none from rfl] at hparse
    exact absurd hparse (by simp)
  unfold CollectAvailability
  rw [hok]
  show (if resolveNextDate r == "" then []
    else match parseDate (resolveNextDate r) with
      | none => []
      | some (y, mo, d) =>
        [Sample.nextSlot c.Name nm (durationDays (timeSub (unixMidnight y mo d) now))]) = _
  rw [if_neg (by simpa using hne), hparse]
  show [Sample.nextSlot c.Name nm (durationDays (timeSub (unixMidnight y mo d) now))] = _
  have hts : timeSub (unixMidnight y mo d) now = (unixMidnight y mo d - now) * 1000000000 := by
    unfold timeSub
    rw [if_neg (not_lt.mpr hlo), if_neg (not_lt.mpr hhi)]
  rw [hts]
  unfold durationDays
  push_cast
  rw [show (3600000000000 : ℚ) = 3600 * 1000000000 by norm_num]
  rw [mul_div_mul_right _ _ (show (1000000000 : ℚ) ≠ 0 by norm_num)]

/-- C9 witness: with now = midnight of 2024-01-10 and a resolved date of
2024-01-12, the emitted next-slot value is exactly 2 days. -/
theorem c9_next_slot_value_witness :
    CollectAvailability o9 (unixMidnight 2024 1 10) cW 5 "CoronaVax" =
      [Sample.nextSlot "Arena" "CoronaVax" 2] := by
  have h := c9_next_slot_value o9 (unixMidnight 2024 1 10) cW 5 "CoronaVax" c9Resp 2024 1 12
    rfl (by decide) (by decide) (by decide)
  rw [h]
  have h12 : unixMidnight 2024 1 12 = 1705017600 := by decide
  have h10 : unixMidnight 2024 1 10 = 1704844800 := by decide
  rw [h12, h10]
  norm_num [cW]
